import Mathlib

/-!
Shallow embedding of the point-of-sale frontend's business logic
(saxelsso/app-frontend-poc): barcode checksum validation
(BarcodeView.vue), order submission and inventory decrement
(Order.vue), returns processing (Return.vue), and sales aggregation
(Stats.vue).

Modelling conventions:
* JavaScript numbers are modelled as `ℚ` (exact rational arithmetic);
  `+x.toFixed(2)` and `Math.round(x*100)/100` become `round2` below,
  rounding half towards plus infinity as `Math.round` does.
* Nullable record fields are `Option`; the JS `?? 0` / `|| 0` guards
  become `Option.getD 0` (with explicit truthiness handling where the
  code distinguishes `0` from `null`).
* The remote Record Store is a `Store` of record lists; every create /
  update call is modelled both as an effect on the `Store` and as an
  entry in a `WriteOp` trace of issued writes.  Write failures (the
  Amplify client resolves with a null `data` instead of throwing) are
  modelled by a `FaultModel` oracle; a failed write leaves the `Store`
  unchanged.
* ES `Map` objects are modelled as functions `String → Option _` built
  by the same fold the code performs (a later `set` wins).
* `String.prototype.trim` / `toLowerCase` are modelled by executable
  character-list functions `jsTrim` / `lowerStr`.
* Timestamps (epoch milliseconds) are plain numbers; local time is
  modelled with a fixed UTC offset: the selected day of `Stats.vue` is
  given by `dayStart`, the epoch millisecond of its local midnight, and
  `getHours()` of an instant inside that day is
  `⌊(t - dayStart) / 3600000⌋`.
-/

namespace POS

/-- Rounding to 2 decimal places, as performed by `+x.toFixed(2)` and
`Math.round(x * 100) / 100` in the source (round half up). -/
def round2 (x : ℚ) : ℚ := ((⌊x * 100 + 1 / 2⌋ : ℤ) : ℚ) / 100

/-- Pointwise update of a string-keyed map, modelling `Map.set`. -/
def mapUpd {α : Type} (m : String → Option α) (k : String) (v : α) :
    String → Option α :=
  fun x => if x = k then some v else m x

/-- Models `String.prototype.toLowerCase` (ASCII suffices here). -/
def lowerStr (s : String) : String := ⟨s.data.map Char.toLower⟩

/-- Models `String.prototype.trim`. -/
def jsTrim (s : String) : String :=
  ⟨((s.data.dropWhile Char.isWhitespace).reverse.dropWhile
      Char.isWhitespace).reverse⟩

/-! ## Data model (amplify/data/resource.ts entities, fields used by the
components; nullable fields are `Option`) -/

/-- A `Product` record. -/
structure Product where
  productId : String
  productName : Option String
  listPrice : Option ℚ
  barcode : Option String
  isSellable : Option Bool
deriving DecidableEq

/-- An `Inventory` record. -/
structure Inventory where
  id : String
  productId : String
  stockLevel : Option ℚ
  purchasePrice : Option ℚ
  lastUpdated : Option ℚ
deriving DecidableEq

/-- An `Order` record. -/
structure OrderRec where
  id : String
  orderNumber : Option String
  orderDate : Option ℚ
  status : Option String
  totalAmount : Option ℚ
deriving DecidableEq

/-- An `OrderItem` record. -/
structure OrderItemRec where
  id : String
  orderId : String
  productId : String
  quantity : Option ℚ
  unitPrice : Option ℚ
  subtotal : Option ℚ
deriving DecidableEq

/-- A `Return` record. -/
structure ReturnRec where
  id : String
  orderId : String
  returnDate : ℚ
  totalRefundAmount : ℚ
  status : String
  reason : String
deriving DecidableEq

/-- A `ReturnItem` record. -/
structure ReturnItemRec where
  returnId : String
  orderItemId : String
  productId : String
  quantityReturned : Option ℚ
  refundAmount : ℚ
  condition : String
deriving DecidableEq

/-- The Record Store: one list of records per entity. -/
structure Store where
  orders : List OrderRec
  orderItems : List OrderItemRec
  inventory : List Inventory
  returns : List ReturnRec
  returnItems : List ReturnItemRec
deriving DecidableEq

/-- A write issued against the Record Store. -/
inductive WriteOp where
  | createOrder (o : OrderRec)
  | createOrderItem (oi : OrderItemRec)
  | updateInventory (id : String) (stockLevel : ℚ) (lastUpdated : ℚ)
  | createReturn (r : ReturnRec)
  | createReturnItem (ri : ReturnItemRec)
deriving DecidableEq

/-- Whether a write targets the `Inventory` entity. -/
def WriteOp.isInventoryWrite : WriteOp → Bool
  | .updateInventory _ _ _ => true
  | _ => false

/-! ## Barcode checksum validator (BarcodeView.vue) -/

/-- Result type of `isValidBarcode`. -/
structure ValidationResult where
  valid : Bool
  error : String
deriving DecidableEq

/-- `barcode.split('').map(Number)` for a digit string. -/
def digitsOf (s : String) : List Nat := s.data.map fun c => c.toNat - 48

/-- The regex test `/^\d+$/`. -/
def isDigitString (s : String) : Bool :=
  !s.data.isEmpty && s.data.all Char.isDigit

/-- Weighted digit sum with weights ×3 on even indices, ×1 on odd
indices (EAN-8 / UPC-A). -/
def weightedSum31 (ds : List Nat) : Nat :=
  (ds.enum.map fun p => p.2 * (if p.1 % 2 = 0 then 3 else 1)).sum

/-- Weighted digit sum with weights ×1 on even indices, ×3 on odd
indices (EAN-13). -/
def weightedSum13 (ds : List Nat) : Nat :=
  (ds.enum.map fun p => p.2 * (if p.1 % 2 = 0 then 1 else 3)).sum

/-- `(10 - (sum % 10)) % 10`. -/
def checkDigitOf (sum : Nat) : Nat := (10 - sum % 10) % 10

/-- `isValidEAN8` from BarcodeView.vue. -/
def isValidEAN8 (barcode : String) : Bool :=
  let digits := digitsOf barcode
  checkDigitOf (weightedSum31 digits.dropLast) == digits.getLastD 0

/-- `isValidUPCA` from BarcodeView.vue (same formula as EAN-8). -/
def isValidUPCA (barcode : String) : Bool :=
  let digits := digitsOf barcode
  checkDigitOf (weightedSum31 digits.dropLast) == digits.getLastD 0

/-- `isValidEAN13` from BarcodeView.vue (weights reversed). -/
def isValidEAN13 (barcode : String) : Bool :=
  let digits := digitsOf barcode
  checkDigitOf (weightedSum13 digits.dropLast) == digits.getLastD 0

/-- `isValidBarcode` from BarcodeView.vue. -/
def isValidBarcode (barcode : String) : ValidationResult :=
  if jsTrim barcode = "" then ⟨true, ""⟩
  else
    let cleanBarcode := jsTrim barcode
    if cleanBarcode.length < 8 || 14 < cleanBarcode.length then
      ⟨false, "Barcode must be between 8 and 14 digits"⟩
    else if !isDigitString cleanBarcode then
      ⟨false, "Barcode must contain only numbers"⟩
    else if cleanBarcode.length = 8 then
      if isValidEAN8 cleanBarcode then ⟨true, ""⟩
      else ⟨false, "Invalid EAN-8 barcode checksum"⟩
    else if cleanBarcode.length = 12 then
      if isValidUPCA cleanBarcode then ⟨true, ""⟩
      else ⟨false, "Invalid UPC-A barcode checksum"⟩
    else if cleanBarcode.length = 13 then
      if isValidEAN13 cleanBarcode then ⟨true, ""⟩
      else ⟨false, "Invalid EAN-13 barcode checksum"⟩
    else ⟨true, ""⟩

/-! ## Returns processing (Return.vue) -/

/-- A line of the return form (`ReturnLine` in Return.vue). -/
structure ReturnLine where
  orderItemId : String
  productId : String
  productName : String
  originalQuantity : ℚ
  maxReturnableQuantity : ℚ
  quantityToReturn : Option ℚ
  unitPrice : ℚ
  condition : String
deriving DecidableEq

/-- State of the return form when submitting. -/
structure ReturnForm where
  selectedOrder : Option OrderRec
  returnLines : List ReturnLine
  returnReason : String

/-- The `productById` computed map (skips records whose `productId` is
falsy, a later record wins). -/
def productByIdFrom (ps : List Product) : String → Option Product :=
  ps.foldl (fun m p => if p.productId = "" then m else mapUpd m p.productId p)
    (fun _ => none)

/-- The `returnedQuantityByOrderItem` computed map: per order item, the
sum of `quantityReturned || 0` over the existing `ReturnItem`s. -/
def returnedQuantityByOrderItem (ris : List ReturnItemRec) : String → ℚ :=
  ris.foldl
    (fun m ri => fun k =>
      if k = ri.orderItemId then m ri.orderItemId + ri.quantityReturned.getD 0
      else m k)
    (fun _ => 0)

/-- Modelled from the spec: the total already-returned quantity of an
order item, `sum(quantityReturned over all ReturnItem referencing it)`. -/
def sumReturnedFor (ris : List ReturnItemRec) (oid : String) : ℚ :=
  ((ris.filter fun ri => ri.orderItemId = oid).map
    fun ri => ri.quantityReturned.getD 0).sum

/-- `product?.productName || orderItem.productId` (the empty string is
falsy). -/
def returnLineName (product : Option Product) (oi : OrderItemRec) : String :=
  match product with
  | some p =>
    match p.productName with
    | some n => if n = "" then oi.productId else n
    | none => oi.productId
  | none => oi.productId

/-- `buildReturnLines` from Return.vue: one form line per order item
with positive `maxReturnable`, which is `(quantity || 0)` minus the
already returned quantity. -/
def buildReturnLines (prods : List Product) (orderItems : List OrderItemRec)
    (ris : List ReturnItemRec) : List ReturnLine :=
  orderItems.filterMap fun oi =>
    let product := productByIdFrom prods oi.productId
    let alreadyReturned := returnedQuantityByOrderItem ris oi.id
    let maxReturnable := oi.quantity.getD 0 - alreadyReturned
    if 0 < maxReturnable then
      some { orderItemId := oi.id
             productId := oi.productId
             productName := returnLineName product oi
             originalQuantity := oi.quantity.getD 0
             maxReturnableQuantity := maxReturnable
             quantityToReturn := none
             unitPrice := oi.unitPrice.getD 0
             condition := "new" }
    else none

/-- Modelled from the spec: the return-form line an `OrderItem` should
produce, with `maxReturnable = quantity - returnedByOrderItem.get(id, 0)`
written with the specification's sum. -/
def specReturnLine (prods : List Product) (ris : List ReturnItemRec)
    (oi : OrderItemRec) : ReturnLine :=
  { orderItemId := oi.id
    productId := oi.productId
    productName := returnLineName (productByIdFrom prods oi.productId) oi
    originalQuantity := oi.quantity.getD 0
    maxReturnableQuantity := oi.quantity.getD 0 - sumReturnedFor ris oi.id
    quantityToReturn := none
    unitPrice := oi.unitPrice.getD 0
    condition := "new" }

/-- The guard `line.quantityToReturn && line.quantityToReturn > 0`. -/
def lineIncluded (l : ReturnLine) : Bool :=
  decide (0 < l.quantityToReturn.getD 0)

/-- `Number.isInteger(q) && q > 0`. -/
def isPosIntQ (q : ℚ) : Bool := q.den == 1 && decide (0 < q)

/-- The `lineRefundAmounts` computed list:
`+(unitPrice * qty).toFixed(2)` per form line (a null quantity counts
as 0). -/
def lineRefundAmounts (lines : List ReturnLine) : List ℚ :=
  lines.map fun l => round2 (l.unitPrice * l.quantityToReturn.getD 0)

/-- The `totalRefundAmount` computed value. -/
def totalRefundAmount (lines : List ReturnLine) : ℚ :=
  round2 (lineRefundAmounts lines).sum

/-- The per-line checks of `validate` in Return.vue, for included lines
(under the guard `quantityToReturn > 0` the code's
`!Number.isInteger(q) || q <= 0` test reduces to the integrality
test). -/
def returnLineValid (l : ReturnLine) : Bool :=
  isPosIntQ (l.quantityToReturn.getD 0) &&
  decide (l.quantityToReturn.getD 0 ≤ l.maxReturnableQuantity) &&
  !(l.condition == "")

/-- `validate` from Return.vue.  The sequential early-return checks
collapse to this conjunction: an order is selected, at least one line is
included, every included line passes `returnLineValid`, and the total
refund is positive. -/
def validateReturn (form : ReturnForm) : Bool :=
  form.selectedOrder.isSome &&
  !(form.returnLines.filter lineIncluded).isEmpty &&
  form.returnLines.all (fun l => !lineIncluded l || returnLineValid l) &&
  decide (0 < totalRefundAmount form.returnLines)

/-- `submitReturn` from Return.vue: validate; create one `Return`
header (`status = 'pending'`), then one `ReturnItem` per included line.
`retId` is the store-assigned id of the new return, `now` the value of
`Date.now()`.  Returns the updated store and the trace of issued
writes. -/
def submitReturn (form : ReturnForm) (store : Store) (retId : String)
    (now : ℚ) : Store × List WriteOp :=
  if validateReturn form = false then (store, [])
  else
    match form.selectedOrder with
    | none => (store, [])
    | some ord =>
      let itemsToReturn := form.returnLines.filter lineIncluded
      let ret : ReturnRec :=
        { id := retId
          orderId := ord.id
          returnDate := now
          totalRefundAmount := totalRefundAmount form.returnLines
          status := "pending"
          reason := if form.returnReason = "" then "Customer return"
                    else form.returnReason }
      let newItems : List ReturnItemRec := itemsToReturn.map fun l =>
        { returnId := retId
          orderItemId := l.orderItemId
          productId := l.productId
          quantityReturned := some (l.quantityToReturn.getD 0)
          refundAmount := round2 (l.unitPrice * l.quantityToReturn.getD 0)
          condition := l.condition }
      ({ store with
          returns := store.returns ++ [ret]
          returnItems := store.returnItems ++ newItems },
        WriteOp.createReturn ret :: newItems.map WriteOp.createReturnItem)

/-! ## Order entry (Order.vue) -/

/-- A line of the order form (`OrderLine` in Order.vue). -/
structure OrderLine where
  productId : String
  quantity : Option ℚ
deriving DecidableEq

/-- Component state of Order.vue at submission time: `products.value`
is the raw product collection (the sellable filter of `listProducts` is
applied below), `inventoryItems.value` the collapsed latest-per-product
inventory cache, `lines` the form lines. -/
structure OrderFormState where
  products : List Product
  inventoryItems : List Inventory
  lines : List OrderLine

/-- `listProducts` keeps only products with `isSellable === true`. -/
def sellableProducts (st : OrderFormState) : List Product :=
  st.products.filter fun p => p.isSellable == some true

/-- Order.vue's `productById` map (built over the sellable products). -/
def productByIdO (st : OrderFormState) : String → Option Product :=
  productByIdFrom (sellableProducts st)

/-- The `stockByProductId` computed map (`stockLevel ?? 0` per cached
inventory row, a later row wins). -/
def stockByProductId (st : OrderFormState) : String → Option ℚ :=
  st.inventoryItems.foldl
    (fun m inv => mapUpd m inv.productId (inv.stockLevel.getD 0))
    (fun _ => none)

/-- The `priceByProductId` computed map (`listPrice ?? 0` per sellable
product). -/
def priceByProductId (st : OrderFormState) : String → Option ℚ :=
  (sellableProducts st).foldl
    (fun m p => if p.productId = "" then m
                else mapUpd m p.productId (p.listPrice.getD 0))
    (fun _ => none)

/-- The `lineSubtotals` computed list: `+(price * qty).toFixed(2)` per
form line (missing price and null quantity count as 0). -/
def lineSubtotals (st : OrderFormState) : List ℚ :=
  st.lines.map fun l =>
    round2 ((priceByProductId st l.productId).getD 0 * l.quantity.getD 0)

/-- The `orderTotal` computed value. -/
def orderTotal (st : OrderFormState) : ℚ := round2 (lineSubtotals st).sum

/-- One iteration of the per-line loop of `validate` in Order.vue:
non-empty product id, product found among the sellable products,
sellable, not already seen, positive integer quantity, quantity at most
the displayed stock.  The loop's sequence of early `return false`
checks is equivalent to this conjunction. -/
def lineOK (st : OrderFormState) (seen : List String) (l : OrderLine) : Bool :=
  !(l.productId == "") &&
  (match productByIdO st l.productId with
   | none => false
   | some product => !(product.isSellable.getD false == false)) &&
  !(seen.contains l.productId) &&
  (match l.quantity with
   | none => false
   | some q =>
     isPosIntQ q && !(decide ((stockByProductId st l.productId).getD 0 < q)))

/-- The per-line loop of `validate` in Order.vue, threading its `seen`
set of product ids. -/
def checkLines (st : OrderFormState) : List OrderLine → List String → Bool
  | [], _ => true
  | l :: rest, seen => lineOK st seen l && checkLines st rest (l.productId :: seen)

/-- `validate` from Order.vue: at least one line with a product and a
quantity, every line passes the per-line checks, and the order total is
positive. -/
def validateOrder (st : OrderFormState) : Bool :=
  !(st.lines.filter fun l => l.productId ≠ "" && l.quantity.isSome).isEmpty &&
  checkLines st st.lines [] &&
  decide (0 < orderTotal st)

/-- A prepared order line (`prepared` in `submitOrder`). -/
structure PreparedItem where
  productId : String
  quantity : ℚ
  unitPrice : ℚ
  subtotal : ℚ
deriving DecidableEq

/-- The `prepared` list of `submitOrder`: lines with a product and a
positive quantity, with unit price, quantity and rounded subtotal. -/
def preparedLines (st : OrderFormState) : List PreparedItem :=
  (st.lines.filter fun l => l.productId ≠ "" && decide (0 < l.quantity.getD 0)).map
    fun l =>
      let unitPrice := (priceByProductId st l.productId).getD 0
      let qty := l.quantity.getD 0
      { productId := l.productId
        quantity := qty
        unitPrice := unitPrice
        subtotal := round2 (unitPrice * qty) }

/-- `totalAmount` of the created order:
`+prepared.reduce((sum, i) => sum + i.subtotal, 0).toFixed(2)`. -/
def orderTotalAmount (items : List PreparedItem) : ℚ :=
  round2 (items.map PreparedItem.subtotal).sum

/-- The `Order` header created by `submitOrder`
(`status: 'completed'`, `orderDate: Date.now()`). -/
def orderHeader (st : OrderFormState) (orderId : String) (now : ℚ) :
    OrderRec :=
  { id := orderId
    orderNumber := none
    orderDate := some now
    status := some "completed"
    totalAmount := some (orderTotalAmount (preparedLines st)) }

/-- `findInventoryByProductId` from Order.vue: first match in the
in-memory inventory cache. -/
def findInventoryByProductId (st : OrderFormState) (productId : String) :
    Option Inventory :=
  st.inventoryItems.find? fun inv => inv.productId = productId

/-- Which writes of a submission fail (the Amplify client resolves with
null `data`): the order-header create, and per line index the
`OrderItem` create and the `Inventory` update. -/
structure FaultModel where
  headerFails : Bool
  createFails : Nat → Bool
  updateFails : Nat → Bool

/-- The fault model in which every write succeeds. -/
def noFault : FaultModel :=
  { headerFails := false, createFails := fun _ => false,
    updateFails := fun _ => false }

/-- The `OrderItem` record created for a prepared line. -/
def mkOrderItemRec (orderId : String) (itemIds : Nat → String) (idx : Nat)
    (item : PreparedItem) : OrderItemRec :=
  { id := itemIds idx
    orderId := orderId
    productId := item.productId
    quantity := some item.quantity
    unitPrice := some item.unitPrice
    subtotal := some item.subtotal }

/-- Point update of the stored inventory list at a record id, modelling
`Inventory.update({id, stockLevel, lastUpdated})`. -/
def updateInvList (rows : List Inventory) (rid : String) (lvl now : ℚ) :
    List Inventory :=
  rows.map fun r =>
    if r.id = rid then { r with stockLevel := some lvl, lastUpdated := some now }
    else r

/-- The stock level `submitOrder` writes for a prepared line found in
the cache: `newStock < 0 ? 0 : newStock` with
`newStock = (inv.stockLevel ?? 0) - quantity`. -/
def writtenStock (inv : Inventory) (item : PreparedItem) : ℚ :=
  let newStock := inv.stockLevel.getD 0 - item.quantity
  if newStock < 0 then 0 else newStock

/-- The per-line loop of `submitOrder`: for each prepared line, create
an `OrderItem` (its result is not checked), then look up the cached
inventory row; when present, write the clamped decremented stock.  A
failed write leaves the store unchanged; every issued write is traced.
`idx` numbers the lines for `itemIds` and the fault oracle. -/
def processLines (st : OrderFormState) (orderId : String)
    (itemIds : Nat → String) (now : ℚ) (f : FaultModel) :
    List PreparedItem → Nat → Store → Store × List WriteOp
  | [], _, store => (store, [])
  | item :: rest, idx, store =>
    let oi := mkOrderItemRec orderId itemIds idx item
    let store1 :=
      if f.createFails idx then store
      else { store with orderItems := store.orderItems ++ [oi] }
    match findInventoryByProductId st item.productId with
    | none =>
      let next := processLines st orderId itemIds now f rest (idx + 1) store1
      (next.1, WriteOp.createOrderItem oi :: next.2)
    | some inv =>
      let lvl := writtenStock inv item
      let store2 :=
        if f.updateFails idx then store1
        else { store1 with inventory := updateInvList store1.inventory inv.id lvl now }
      let next := processLines st orderId itemIds now f rest (idx + 1) store2
      (next.1,
        WriteOp.createOrderItem oi :: WriteOp.updateInventory inv.id lvl now
          :: next.2)

/-- `submitOrder` from Order.vue: validate (no write on failure),
create the `Order` header (stop after it if that create fails), then
process the prepared lines sequentially. -/
def submitOrder (st : OrderFormState) (store : Store) (orderId : String)
    (itemIds : Nat → String) (now : ℚ) (f : FaultModel) :
    Store × List WriteOp :=
  if validateOrder st = false then (store, [])
  else
    let header := orderHeader st orderId now
    if f.headerFails then (store, [WriteOp.createOrder header])
    else
      let store1 := { store with orders := store.orders ++ [header] }
      let next := processLines st orderId itemIds now f (preparedLines st) 0 store1
      (next.1, WriteOp.createOrder header :: next.2)

/-- Closed form of the `OrderItem` records the per-line loop
successfully creates: one per line whose create does not fail,
independent of the other lines' outcomes. -/
def createdItems (orderId : String) (itemIds : Nat → String) (f : FaultModel) :
    List PreparedItem → Nat → List OrderItemRec
  | [], _ => []
  | item :: rest, idx =>
    if f.createFails idx then createdItems orderId itemIds f rest (idx + 1)
    else mkOrderItemRec orderId itemIds idx item ::
      createdItems orderId itemIds f rest (idx + 1)

/-- Closed form of the stored inventory after the per-line loop: each
line whose cached row is found and whose update does not fail applies
its point update, in order, independent of the other lines'
outcomes. -/
def inventoryAfter (st : OrderFormState) (now : ℚ) (f : FaultModel) :
    List PreparedItem → Nat → List Inventory → List Inventory
  | [], _, rows => rows
  | item :: rest, idx, rows =>
    match findInventoryByProductId st item.productId with
    | none => inventoryAfter st now f rest (idx + 1) rows
    | some inv =>
      inventoryAfter st now f rest (idx + 1)
        (if f.updateFails idx then rows
         else updateInvList rows inv.id (writtenStock inv item) now)

/-- Closed form of the write trace of the per-line loop (writes are
issued whether or not they fail). -/
def lineOps (st : OrderFormState) (orderId : String) (itemIds : Nat → String)
    (now : ℚ) : List PreparedItem → Nat → List WriteOp
  | [], _ => []
  | item :: rest, idx =>
    let oi := mkOrderItemRec orderId itemIds idx item
    match findInventoryByProductId st item.productId with
    | none =>
      WriteOp.createOrderItem oi :: lineOps st orderId itemIds now rest (idx + 1)
    | some inv =>
      WriteOp.createOrderItem oi ::
        WriteOp.updateInventory inv.id (writtenStock inv item) now ::
          lineOps st orderId itemIds now rest (idx + 1)

/-! ## Sales dashboard (Stats.vue) -/

/-- `order.status?.toLowerCase() === 'completed'`. -/
def statusCompleted (o : OrderRec) : Bool :=
  match o.status with
  | some s => lowerStr s == "completed"
  | none => false

/-- The `totalSales` computed value: sum of `totalAmount ?? 0` over the
completed orders. -/
def totalSalesStat (orders : List OrderRec) : ℚ :=
  (orders.filter statusCompleted).foldl (fun sum o => sum + o.totalAmount.getD 0) 0

/-- The `totalOrders` computed value. -/
def totalOrdersStat (orders : List OrderRec) : Nat :=
  (orders.filter statusCompleted).length

/-- The `latestInventoryByProduct` map of `totalProfit`: per product the
inventory row with the strictly greatest `lastUpdated ?? 0` (the first
such row on ties). -/
def latestInventoryByProduct (invs : List Inventory) :
    String → Option Inventory :=
  invs.foldl
    (fun m inv =>
      match m inv.productId with
      | none => mapUpd m inv.productId inv
      | some existing =>
        if existing.lastUpdated.getD 0 < inv.lastUpdated.getD 0 then
          mapUpd m inv.productId inv
        else m)
    (fun _ => none)

/-- The profit contribution of one order item in `totalProfit`:
`(unitPrice - purchasePrice) * quantity`, the purchase price resolved
from the latest inventory row (`?.purchasePrice ?? 0`). -/
def profitOfItem (invs : List Inventory) (item : OrderItemRec) : ℚ :=
  let purchasePrice :=
    ((latestInventoryByProduct invs item.productId).bind Inventory.purchasePrice).getD 0
  (item.unitPrice.getD 0 - purchasePrice) * item.quantity.getD 0

/-- The `totalProfit` computed value from Stats.vue. -/
def totalProfit (orders : List OrderRec) (orderItems : List OrderItemRec)
    (invs : List Inventory) : ℚ :=
  let completedOrders := orders.filter statusCompleted
  if completedOrders.isEmpty then 0
  else
    let completedOrderIds := completedOrders.map OrderRec.id
    let relevantOrderItems :=
      orderItems.filter fun item => completedOrderIds.contains item.orderId
    relevantOrderItems.foldl (fun acc item => acc + profitOfItem invs item) 0

/-- `getHours()` of an epoch-millisecond instant, for a day whose local
midnight is at `dayStart` (fixed-offset local time). -/
def hourOfDay (dayStart t : ℚ) : ℤ := ⌊(t - dayStart) / 3600000⌋

/-- The day filter of `chartData`: completed status, truthy `orderDate`,
and `startOfDay <= orderDate <= endOfDay` where `endOfDay` is
23:59:59.000 of the selected day. -/
def chartOrderKept (dayStart : ℚ) (o : OrderRec) : Bool :=
  statusCompleted o &&
  (match o.orderDate with
   | none => false
   | some t => decide (t ≠ 0) && decide (dayStart ≤ t) &&
       decide (t ≤ dayStart + 86399000))

/-- The filtered and date-sorted `completedOrders` list of `chartData`. -/
def chartCompletedOrders (orders : List OrderRec) (dayStart : ℚ) :
    List OrderRec :=
  (orders.filter (chartOrderKept dayStart)).mergeSort
    fun a b => decide (a.orderDate.getD 0 ≤ b.orderDate.getD 0)

/-- The `salesByHour` map of `chartData`: starting from 0 everywhere,
each order with truthy `orderDate` and truthy `totalAmount` adds its
total at its hour. -/
def salesByHour (os : List OrderRec) (dayStart : ℚ) : ℤ → ℚ :=
  os.foldl
    (fun m o =>
      match o.orderDate with
      | none => m
      | some t =>
        if t = 0 then m
        else if o.totalAmount.getD 0 = 0 then m
        else fun h =>
          if h = hourOfDay dayStart t then m h + o.totalAmount.getD 0 else m h)
    (fun _ => 0)

/-- The 24 hourly data points of `chartData`:
`Math.round((salesByHour.get(i) ?? 0) * 100) / 100` for `i = 0..23`. -/
def chartDataValues (orders : List OrderRec) (dayStart : ℚ) : List ℚ :=
  (List.range 24).map fun (i : Nat) =>
    round2 (salesByHour (chartCompletedOrders orders dayStart) dayStart
      (i : ℤ))

/-- The condition under which the accumulation loop of `chartData` adds
an order into the bucket of hour `h`: truthy `orderDate`, truthy
`totalAmount`, and `getHours()` equal to `h`. -/
def chartAddKept (dayStart : ℚ) (h : ℤ) (o : OrderRec) : Bool :=
  (match o.orderDate with
   | none => false
   | some t => decide (t ≠ 0) && (hourOfDay dayStart t == h)) &&
  decide (o.totalAmount.getD 0 ≠ 0)

/-- Modelled from the spec: membership of an order in the bucket of
hour `h` of the selected day. -/
def inHourBucket (dayStart : ℚ) (h : ℤ) (o : OrderRec) : Bool :=
  statusCompleted o &&
  (match o.orderDate with
   | none => false
   | some t => decide (dayStart ≤ t) && decide (t ≤ dayStart + 86399000) &&
       hourOfDay dayStart t == h)

/-- Modelled from the spec: the exact bucket sum for hour `h` -/
def bucketSumSpec (orders : List OrderRec) (dayStart : ℚ) (h : ℤ) : ℚ :=
  ((orders.filter (inHourBucket dayStart h)).map fun o => o.totalAmount.getD 0).sum

/-! ## Concrete instances used by witnesses and counterexamples -/

/-- The empty store. -/
def emptyStore : Store :=
  { orders := [], orderItems := [], inventory := [], returns := [],
    returnItems := [] }

/-- A return-form line requesting 5 units of a line with only 3 still
returnable. -/
def c2Line : ReturnLine :=
  { orderItemId := "oi1", productId := "p1", productName := "Widget",
    originalQuantity := 5, maxReturnableQuantity := 3,
    quantityToReturn := some 5, unitPrice := 10, condition := "new" }

/-- A return form whose only line over-requests. -/
def c2Form : ReturnForm :=
  { selectedOrder := some
      { id := "o1", orderNumber := none, orderDate := some 1,
        status := some "completed", totalAmount := some 50 }
    returnLines := [c2Line]
    returnReason := "" }

/-- A sellable product priced 1.005 (a half-cent price exercising the
rounding boundary). -/
def c6Product (pid : String) : Product :=
  { productId := pid, productName := some "Widget",
    listPrice := some (201/200), barcode := none, isSellable := some true }

/-- An order form with two unit-quantity lines of 1.005-priced
products. -/
def c6State : OrderFormState :=
  { products := [c6Product "p1", c6Product "p2"]
    inventoryItems := []
    lines := [{ productId := "p1", quantity := some 1 },
              { productId := "p2", quantity := some 1 }] }

/-- A sellable product priced 5 for the order-flow witnesses. -/
def c3Product : Product :=
  { productId := "p1", productName := some "Widget", listPrice := some 5,
    barcode := none, isSellable := some true }

/-- The cached inventory row of the order-flow witnesses (stock 2). -/
def c3Inv : Inventory :=
  { id := "i1", productId := "p1", stockLevel := some 2,
    purchasePrice := none, lastUpdated := some 1 }

/-- An order form requesting 2 units of a product with stock 2. -/
def c3GoodState : OrderFormState :=
  { products := [c3Product], inventoryItems := [c3Inv],
    lines := [{ productId := "p1", quantity := some 2 }] }

/-- An order form requesting 3 units of a product with stock 2. -/
def c3BadState : OrderFormState :=
  { products := [c3Product], inventoryItems := [c3Inv],
    lines := [{ productId := "p1", quantity := some 3 }] }

/-- A completed order in the last half-second of day 2 (local time):
23:59:59.500. -/
def c7LateOrder : OrderRec :=
  { id := "oL", orderNumber := none, orderDate := some (86400000 + 86399500),
    status := some "completed", totalAmount := some 10 }

/-- A completed order at the first instant of day 2 with a half-cent
total. -/
def c7HalfCentOrder : OrderRec :=
  { id := "oH", orderNumber := none, orderDate := some 86400000,
    status := some "completed", totalAmount := some (1/200) }

/-- A completed order for the C10 witness. -/
def c10Order : OrderRec :=
  { id := "o1", orderNumber := none, orderDate := some 5,
    status := some "Completed", totalAmount := some 14 }

/-- An order item of `c10Order` whose product has no inventory row. -/
def c10Item : OrderItemRec :=
  { id := "it1", orderId := "o1", productId := "pX", quantity := some 2,
    unitPrice := some 7, subtotal := some 14 }

/-! ## Helper lemmas -/

theorem c3GoodState_valid : validateOrder c3GoodState = true := by
  norm_num [validateOrder, checkLines, lineOK, c3GoodState, c3Product, c3Inv,
    productByIdO, productByIdFrom, sellableProducts, stockByProductId,
    priceByProductId, mapUpd, isPosIntQ, orderTotal, lineSubtotals, round2,
    show ("p1":String) ≠ "" from by decide]

theorem round2_div_hundred (n : ℤ) : round2 ((n : ℚ) / 100) = (n : ℚ) / 100 := by
  unfold round2
  have h : ((n : ℚ) / 100) * 100 = (n : ℚ) := by
    rw [div_mul_cancel₀]
    norm_num
  rw [h, Int.floor_int_add]
  norm_num

theorem round2_sum_eq_of_mem (l : List ℚ)
    (h : ∀ x ∈ l, ∃ n : ℤ, x = (n : ℚ) / 100) :
    round2 l.sum = l.sum := by
  have hsum : ∃ n : ℤ, l.sum = (n : ℚ) / 100 := by
    induction l with
    | nil => exact ⟨0, by simp⟩
    | cons a t ih =>
      obtain ⟨n, hn⟩ := h a (List.mem_cons_self a t)
      obtain ⟨m, hm⟩ := ih fun x hx => h x (List.mem_cons_of_mem a hx)
      refine ⟨n + m, ?_⟩
      rw [List.sum_cons, hn, hm]
      push_cast
      ring
  obtain ⟨n, hn⟩ := hsum
  rw [hn, round2_div_hundred]

theorem preparedLines_subtotal (st : OrderFormState) {i : PreparedItem}
    (hi : i ∈ preparedLines st) :
    i.subtotal = round2 (i.unitPrice * i.quantity) := by
  unfold preparedLines at hi
  obtain ⟨l, _, rfl⟩ := List.mem_map.1 hi
  rfl

theorem filterMap_ite {α β : Type} (p : α → Prop) [DecidablePred p]
    (g : α → β) (l : List α) :
    (l.filterMap fun a => if p a then some (g a) else none) =
      (l.filter fun a => decide (p a)).map g := by
  induction l with
  | nil => rfl
  | cons a t ih =>
    by_cases h : p a <;> simp [List.filterMap_cons, List.filter_cons, h, ih]

theorem returnedQuantity_foldl (ris : List ReturnItemRec) (m : String → ℚ)
    (k : String) :
    (ris.foldl
        (fun m ri => fun x =>
          if x = ri.orderItemId then m ri.orderItemId + ri.quantityReturned.getD 0
          else m x)
        m) k = m k + sumReturnedFor ris k := by
  induction ris generalizing m with
  | nil => simp [sumReturnedFor]
  | cons ri rest ih =>
    rw [List.foldl_cons, ih]
    by_cases hk : k = ri.orderItemId
    · subst hk
      simp [sumReturnedFor, List.filter_cons]
      ring
    · have hk' : ¬(ri.orderItemId = k) := fun h => hk h.symm
      simp [sumReturnedFor, List.filter_cons, hk, hk']

theorem returnedQuantity_eq_sum (ris : List ReturnItemRec) (k : String) :
    returnedQuantityByOrderItem ris k = sumReturnedFor ris k := by
  have h := returnedQuantity_foldl ris (fun _ => 0) k
  simpa [returnedQuantityByOrderItem] using h

theorem processLines_eq (st : OrderFormState) (orderId : String)
    (itemIds : Nat → String) (now : ℚ) (f : FaultModel) :
    ∀ (items : List PreparedItem) (idx : Nat) (store : Store),
      processLines st orderId itemIds now f items idx store =
        ({ orders := store.orders
           orderItems := store.orderItems ++
             createdItems orderId itemIds f items idx
           inventory := inventoryAfter st now f items idx store.inventory
           returns := store.returns
           returnItems := store.returnItems },
         lineOps st orderId itemIds now items idx) := by
  intro items
  induction items with
  | nil =>
    intro idx store
    simp [processLines, createdItems, inventoryAfter, lineOps]
  | cons item rest ih =>
    intro idx store
    simp only [processLines, createdItems, inventoryAfter, lineOps]
    cases hfind : findInventoryByProductId st item.productId with
    | none =>
      by_cases hc : f.createFails idx <;> simp [hc, ih, List.append_assoc]
    | some inv =>
      by_cases hc : f.createFails idx <;> by_cases hu : f.updateFails idx <;>
        simp [hc, hu, ih, List.append_assoc]

theorem foldl_mapUpd_not_mem {α : Type} (g : Inventory → α) :
    ∀ (rows : List Inventory) (m : String → Option α) (k : String),
      k ∉ rows.map Inventory.productId →
      rows.foldl (fun m inv => mapUpd m inv.productId (g inv)) m k = m k := by
  intro rows
  induction rows with
  | nil => intro m k _; rfl
  | cons a t ih =>
    intro m k hk
    simp only [List.map_cons, List.mem_cons, not_or] at hk
    rw [List.foldl_cons, ih _ _ hk.2]
    simp [mapUpd, hk.1]

theorem foldl_mapUpd_find {α : Type} (g : Inventory → α) :
    ∀ (rows : List Inventory) (m : String → Option α) (k : String)
      (inv : Inventory),
      (rows.map Inventory.productId).Nodup →
      rows.find? (fun r => r.productId = k) = some inv →
      rows.foldl (fun m inv => mapUpd m inv.productId (g inv)) m k =
        some (g inv) := by
  intro rows
  induction rows with
  | nil => intro m k inv _ h; simp at h
  | cons a t ih =>
    intro m k inv hnd hfind
    simp only [List.map_cons, List.nodup_cons] at hnd
    by_cases hak : a.productId = k
    · have ha : inv = a := by
        rw [List.find?_cons_of_pos _ (by simp [hak])] at hfind
        exact (Option.some.inj hfind).symm
      subst ha
      rw [List.foldl_cons, foldl_mapUpd_not_mem g t _ k (hak ▸ hnd.1)]
      simp [mapUpd, hak.symm]
    · rw [List.find?_cons_of_neg _ (by simp [hak])] at hfind
      rw [List.foldl_cons]
      exact ih _ _ _ hnd.2 hfind

theorem stockByProductId_find (st : OrderFormState) {pid : String}
    {inv : Inventory}
    (hnd : (st.inventoryItems.map Inventory.productId).Nodup)
    (hfind : findInventoryByProductId st pid = some inv) :
    stockByProductId st pid = some (inv.stockLevel.getD 0) :=
  foldl_mapUpd_find (fun inv => inv.stockLevel.getD 0) st.inventoryItems
    _ pid inv hnd hfind

theorem checkLines_line_facts (st : OrderFormState) :
    ∀ (lines : List OrderLine) (seen : List String) (l : OrderLine),
      checkLines st lines seen = true → l ∈ lines →
      l.productId ≠ "" ∧
      ∃ q, l.quantity = some q ∧ isPosIntQ q = true ∧
        ¬((stockByProductId st l.productId).getD 0 < q) := by
  intro lines
  induction lines with
  | nil => intro seen l _ hl; cases hl
  | cons a rest ih =>
    intro seen l hchk hl
    rw [checkLines, Bool.and_eq_true] at hchk
    rcases List.mem_cons.1 hl with rfl | hl'
    · have hok := hchk.1
      unfold lineOK at hok
      simp only [Bool.and_eq_true] at hok
      obtain ⟨⟨⟨hpid, _⟩, _⟩, hq⟩ := hok
      refine ⟨by simpa using hpid, ?_⟩
      cases hq0 : l.quantity with
      | none => rw [hq0] at hq; cases hq
      | some q =>
        rw [hq0] at hq
        simp only [Bool.and_eq_true] at hq
        exact ⟨q, rfl, hq.1, by simpa using hq.2⟩
    · exact ih _ l hchk.2 hl'

theorem checkLines_false_of_overstock (st : OrderFormState) :
    ∀ (lines : List OrderLine) (seen : List String) (l : OrderLine) (q : ℚ),
      l ∈ lines → l.quantity = some q →
      (stockByProductId st l.productId).getD 0 < q →
      checkLines st lines seen = false := by
  intro lines
  induction lines with
  | nil => intro seen l q hl _ _; cases hl
  | cons a rest ih =>
    intro seen l q hl hq hlt
    rcases List.mem_cons.1 hl with rfl | hl'
    · rw [checkLines]
      have hbad : lineOK st seen l = false := by
        unfold lineOK
        rw [hq]
        simp [hlt]
      simp [hbad]
    · rw [checkLines]
      rcases Bool.eq_false_or_eq_true (lineOK st seen a) with h | h
      · rw [h, Bool.true_and]
        exact ih _ l q hl' hq hlt
      · simp [h]

theorem writtenStock_eq_max (inv : Inventory) (item : PreparedItem) :
    writtenStock inv item = max 0 (inv.stockLevel.getD 0 - item.quantity) := by
  unfold writtenStock
  rcases lt_or_le (inv.stockLevel.getD 0 - item.quantity) 0 with h | h
  · rw [if_pos h, max_eq_left h.le]
  · rw [if_neg (not_lt.2 h), max_eq_right h]

theorem preparedLines_mem (st : OrderFormState) {l : OrderLine}
    (hl : l ∈ st.lines) (hpid : l.productId ≠ "")
    (hq : 0 < l.quantity.getD 0) :
    ({ productId := l.productId
       quantity := l.quantity.getD 0
       unitPrice := (priceByProductId st l.productId).getD 0
       subtotal := round2
         ((priceByProductId st l.productId).getD 0 * l.quantity.getD 0) } :
      PreparedItem) ∈ preparedLines st := by
  unfold preparedLines
  refine List.mem_map.2 ⟨l, List.mem_filter.2 ⟨hl, ?_⟩, rfl⟩
  simp [hpid, hq]

theorem lineOps_mem_update (st : OrderFormState) (orderId : String)
    (itemIds : Nat → String) (now : ℚ) :
    ∀ (items : List PreparedItem) (idx : Nat) (item : PreparedItem)
      (inv : Inventory),
      item ∈ items → findInventoryByProductId st item.productId = some inv →
      WriteOp.updateInventory inv.id (writtenStock inv item) now ∈
        lineOps st orderId itemIds now items idx := by
  intro items
  induction items with
  | nil => intro idx item inv h _; cases h
  | cons a rest ih =>
    intro idx item inv hmem hfind
    rcases List.mem_cons.1 hmem with rfl | hmem'
    · rw [lineOps, hfind]
      simp
    · rw [lineOps]
      cases hf : findInventoryByProductId st a.productId with
      | none => exact List.mem_cons_of_mem _ (ih (idx + 1) item inv hmem' hfind)
      | some invA =>
        exact List.mem_cons_of_mem _
          (List.mem_cons_of_mem _ (ih (idx + 1) item inv hmem' hfind))

theorem createdItems_mem (orderId : String) (itemIds : Nat → String)
    (f : FaultModel) :
    ∀ (items : List PreparedItem) (k i : Nat) (item : PreparedItem),
      items[i]? = some item → f.createFails (k + i) = false →
      mkOrderItemRec orderId itemIds (k + i) item ∈
        createdItems orderId itemIds f items k := by
  intro items
  induction items with
  | nil => intro k i item h _; simp at h
  | cons a rest ih =>
    intro k i item hget hf
    cases i with
    | zero =>
      have ha : a = item := by simpa using hget
      subst ha
      rw [createdItems]
      rw [Nat.add_zero] at hf ⊢
      simp [hf]
    | succ n =>
      have hf' : f.createFails (k + 1 + n) = false := by
        have heq : k + 1 + n = k + (n + 1) := by omega
        rw [heq]
        exact hf
      have hrec := ih (k + 1) n item (by simpa using hget) hf'
      have heq : k + 1 + n = k + (n + 1) := by omega
      rw [heq] at hrec
      rw [createdItems]
      by_cases hc : f.createFails k <;> simp [hc, hrec]

theorem foldl_add_sum {α : Type} (g : α → ℚ) :
    ∀ (l : List α) (a : ℚ),
      l.foldl (fun s x => s + g x) a = a + (l.map g).sum := by
  intro l
  induction l with
  | nil => intro a; simp
  | cons x t ih =>
    intro a
    rw [List.foldl_cons, ih]
    simp
    ring

theorem salesByHour_foldl (dayStart : ℚ) :
    ∀ (os : List OrderRec) (m : ℤ → ℚ) (h : ℤ),
      os.foldl
        (fun m o =>
          match o.orderDate with
          | none => m
          | some t =>
            if t = 0 then m
            else if o.totalAmount.getD 0 = 0 then m
            else fun h =>
              if h = hourOfDay dayStart t then m h + o.totalAmount.getD 0
              else m h) m h =
        m h + ((os.filter (chartAddKept dayStart h)).map
          fun o => o.totalAmount.getD 0).sum := by
  intro os
  induction os with
  | nil => intro m h; simp
  | cons o rest ih =>
    intro m h
    rw [List.foldl_cons, List.filter_cons]
    cases hdate : o.orderDate with
    | none => simp [chartAddKept, hdate, ih]
    | some tt =>
      by_cases h0 : tt = 0
      · simp [chartAddKept, hdate, h0, ih]
      · by_cases ha : o.totalAmount.getD 0 = 0
        · simp [chartAddKept, hdate, h0, ha, ih]
        · by_cases hh : h = hourOfDay dayStart tt
          · have hbeq : (hourOfDay dayStart tt == h) = true := by
              simp [hh.symm]
            simp only [hdate, if_neg h0, if_neg ha, ih, chartAddKept, hbeq,
              decide_eq_true_eq]
            simp [h0, ha, if_pos hh, hh]
            ring
          · have hbeq : (hourOfDay dayStart tt == h) = false := by
              simp
              exact fun he => hh he.symm
            simp only [hdate, if_neg h0, if_neg ha, ih, chartAddKept, hbeq,
              decide_eq_true_eq]
            simp [h0, ha, if_neg hh]

theorem salesByHour_eq_sum (os : List OrderRec) (dayStart : ℚ) (h : ℤ) :
    salesByHour os dayStart h =
      ((os.filter (chartAddKept dayStart h)).map
        fun o => o.totalAmount.getD 0).sum := by
  have hfold := salesByHour_foldl dayStart os (fun _ => 0) h
  simpa [salesByHour] using hfold

theorem sum_filter_congr_zero (g : OrderRec → ℚ) :
    ∀ (l : List OrderRec) (p q : OrderRec → Bool),
      (∀ o ∈ l, p o = q o ∨ g o = 0) →
      ((l.filter p).map g).sum = ((l.filter q).map g).sum := by
  intro l
  induction l with
  | nil => intro p q _; rfl
  | cons a t ih =>
    intro p q hpq
    have ihh := ih p q fun o ho => hpq o (List.mem_cons_of_mem a ho)
    rw [List.filter_cons, List.filter_cons]
    rcases hpq a (List.mem_cons_self a t) with heq | hz
    · rw [heq]
      cases hqa : q a <;> simp [hqa, ihh]
    · cases hpa : p a <;> cases hqa : q a <;> simp [hpa, hqa, hz, ihh]

theorem chart_conds_eq (dayStart : ℚ) (i : ℤ) (hpos : 0 < dayStart)
    (o : OrderRec) (hamt : o.totalAmount.getD 0 ≠ 0) :
    (chartAddKept dayStart i o && chartOrderKept dayStart o) =
      inHourBucket dayStart i o := by
  unfold chartAddKept chartOrderKept inHourBucket
  cases hdate : o.orderDate with
  | none => simp
  | some t =>
    by_cases hw : dayStart ≤ t
    · have ht0 : t ≠ 0 := by
        intro he
        rw [he] at hw
        exact absurd (lt_of_lt_of_le hpos hw) (lt_irrefl 0)
      cases hsc : statusCompleted o <;>
        cases hle : decide (t ≤ dayStart + 86399000) <;>
          cases hhb : (hourOfDay dayStart t == i) <;>
            simp [hsc, hle, hhb, hamt, ht0, hw]
    · simp [hw]

theorem chartDataValues_getD (orders : List OrderRec) (dayStart : ℚ)
    (i : Nat) (hi : i < 24) :
    (chartDataValues orders dayStart).getD i 0 =
      round2 (salesByHour (chartCompletedOrders orders dayStart) dayStart
        i) := by
  unfold chartDataValues
  rw [List.getD_eq_getElem?_getD, List.getElem?_map, List.getElem?_range hi]
  rfl

theorem chartDataValues_eq_bucket (orders : List OrderRec) (dayStart : ℚ)
    (hpos : 0 < dayStart) (i : Nat) (hi : i < 24) :
    (chartDataValues orders dayStart).getD i 0 =
      round2 (bucketSumSpec orders dayStart i) := by
  rw [chartDataValues_getD orders dayStart i hi]
  congr 1
  calc salesByHour (chartCompletedOrders orders dayStart) dayStart i
      = (((chartCompletedOrders orders dayStart).filter
          (chartAddKept dayStart i)).map fun o => o.totalAmount.getD 0).sum :=
        salesByHour_eq_sum _ dayStart i
    _ = (((orders.filter (chartOrderKept dayStart)).filter
          (chartAddKept dayStart i)).map fun o => o.totalAmount.getD 0).sum :=
        List.Perm.sum_eq (List.Perm.map _
          (List.Perm.filter _ (List.mergeSort_perm _ _)))
    _ = ((orders.filter fun o =>
          chartAddKept dayStart i o && chartOrderKept dayStart o).map
            fun o => o.totalAmount.getD 0).sum := by
        rw [List.filter_filter]
    _ = ((orders.filter (inHourBucket dayStart i)).map
          fun o => o.totalAmount.getD 0).sum := by
        apply sum_filter_congr_zero
        intro o _
        by_cases hamt : o.totalAmount.getD 0 = 0
        · exact Or.inr hamt
        · exact Or.inl (chart_conds_eq dayStart i hpos o hamt)
    _ = bucketSumSpec orders dayStart i := rfl

theorem latestInventory_foldl_not_mem :
    ∀ (invs : List Inventory) (m : String → Option Inventory) (pid : String),
      (∀ r ∈ invs, r.productId ≠ pid) →
      invs.foldl
        (fun m inv =>
          match m inv.productId with
          | none => mapUpd m inv.productId inv
          | some existing =>
            if existing.lastUpdated.getD 0 < inv.lastUpdated.getD 0 then
              mapUpd m inv.productId inv
            else m) m pid = m pid := by
  intro invs
  induction invs with
  | nil => intro m pid _; rfl
  | cons a t ih =>
    intro m pid hne
    rw [List.foldl_cons, ih _ pid fun r hr => hne r (List.mem_cons_of_mem a hr)]
    have ha : ¬(pid = a.productId) := fun h =>
      hne a (List.mem_cons_self a t) h.symm
    cases hm : m a.productId with
    | none => simp [hm, mapUpd, ha]
    | some e =>
      by_cases hlu : e.lastUpdated.getD 0 < a.lastUpdated.getD 0 <;>
        simp [hm, hlu, mapUpd, ha]

theorem latestInventoryByProduct_none (invs : List Inventory) (pid : String)
    (h : ∀ r ∈ invs, r.productId ≠ pid) :
    latestInventoryByProduct invs pid = none :=
  latestInventory_foldl_not_mem invs (fun _ => none) pid h

/-! ## Claims -/

/-- C1: for every order's items and every set of existing return items,
`buildReturnLines` keeps exactly the order items whose
`maxReturnable = quantity - sum(quantityReturned over referencing
ReturnItems)` is strictly positive, and assigns that difference as the
line's `maxReturnableQuantity` (the sum being 0 when no `ReturnItem`
references the item). -/
theorem C1_returnable_lines (prods : List Product)
    (orderItems : List OrderItemRec) (ris : List ReturnItemRec) :
    buildReturnLines prods orderItems ris =
      (orderItems.filter fun oi =>
          decide (sumReturnedFor ris oi.id < oi.quantity.getD 0)).map
        (specReturnLine prods ris) := by
  unfold buildReturnLines
  rw [filterMap_ite (fun oi : OrderItemRec =>
      0 < oi.quantity.getD 0 - returnedQuantityByOrderItem ris oi.id)]
  rw [List.filter_congr (fun oi _ => ?_), List.map_congr_left (fun oi _ => ?_)]
  · simp [specReturnLine, returnedQuantity_eq_sum]
  · rw [decide_eq_decide, returnedQuantity_eq_sum, sub_pos]

/-- C2: whenever some included line requests more than its
`maxReturnable`, or a requested quantity is not a positive integer, or
no line is included, or the total refund is not positive, `validate`
fails and `submitReturn` issues no write: the store is unchanged, no
`Return` or `ReturnItem` is created, and retrying leaves the store
unchanged again. -/
theorem C2_invalid_return_rejected (form : ReturnForm) (store : Store)
    (retId : String) (now : ℚ)
    (h : (∃ l ∈ form.returnLines, lineIncluded l = true ∧
            (l.maxReturnableQuantity < l.quantityToReturn.getD 0 ∨
             isPosIntQ (l.quantityToReturn.getD 0) = false)) ∨
         (∀ l ∈ form.returnLines, lineIncluded l = false) ∨
         totalRefundAmount form.returnLines ≤ 0) :
    validateReturn form = false ∧
    submitReturn form store retId now = (store, []) ∧
    submitReturn form (submitReturn form store retId now).1 retId now =
      (store, []) := by
  have hval : validateReturn form = false := by
    rcases h with ⟨l, hl, hinc, hbad⟩ | hnone | href
    · have hlv : (!lineIncluded l || returnLineValid l) = false := by
        rcases hbad with hgt | hint
        · have : decide (l.quantityToReturn.getD 0 ≤ l.maxReturnableQuantity)
              = false := by simpa using not_le.2 hgt
          simp [hinc, returnLineValid, this]
        · simp [hinc, returnLineValid, hint]
      have : form.returnLines.all
          (fun l => !lineIncluded l || returnLineValid l) = false := by
        rw [List.all_eq_false]
        exact ⟨l, hl, by simp [hlv]⟩
      simp [validateReturn, this]
    · have : form.returnLines.filter lineIncluded = [] :=
        List.filter_eq_nil_iff.2 (by simpa using hnone)
      simp [validateReturn, this]
    · simp [validateReturn, not_lt.2 href]
  refine ⟨hval, ?_, ?_⟩ <;> simp [submitReturn, hval]

/-- Witness for C2: the over-requesting form `c2Form` is rejected with
no store effect, also on retry. -/
theorem C2_invalid_return_rejected_witness :
    validateReturn c2Form = false ∧
    submitReturn c2Form emptyStore "r1" 0 = (emptyStore, []) ∧
    submitReturn c2Form (submitReturn c2Form emptyStore "r1" 0).1 "r1" 0 =
      (emptyStore, []) :=
  C2_invalid_return_rejected c2Form emptyStore "r1" 0
    (Or.inl ⟨c2Line, by simp [c2Form], by norm_num [lineIncluded, c2Line],
      Or.inl (by norm_num [c2Line])⟩)

/-- C8: return submission never touches inventory: for every form state
and store, the store's `Inventory` rows are unchanged by `submitReturn`
and no issued write targets the `Inventory` entity. -/
theorem C8_return_never_writes_inventory (form : ReturnForm) (store : Store)
    (retId : String) (now : ℚ) :
    (submitReturn form store retId now).1.inventory = store.inventory ∧
    ∀ op ∈ (submitReturn form store retId now).2,
      op.isInventoryWrite = false := by
  by_cases hv : validateReturn form = false
  · simp [submitReturn, hv]
  · cases hsel : form.selectedOrder with
    | none => simp [submitReturn, hv, hsel]
    | some ord =>
      refine ⟨by simp [submitReturn, hv, hsel], ?_⟩
      intro op hop
      simp only [submitReturn, hv, if_false, hsel] at hop
      rcases List.mem_cons.1 hop with rfl | hop'
      · rfl
      · obtain ⟨ri, _, rfl⟩ := List.mem_map.1 hop'
        rfl

/-- C5 counterexample: the claim requires every wrong-length (or
non-digit) input to be rejected with a format error, but the empty
input has length 0 and is nevertheless accepted as valid with no error
(the barcode field is optional). -/
theorem C5_counterexample_empty_accepted :
    (isValidBarcode "").valid = true ∧ (isValidBarcode "").error = "" := by
  exact ⟨rfl, rfl⟩

/-- C5 (amended): for trim-fixed inputs, a digit-only string of length
8, 12 or 13 is accepted iff the check digit `(10 - sum % 10) % 10` over
the payload (weights ×3/×1 for 8 and 12, ×1/×3 for 13) equals its last
digit; a digit-only string of length 9, 10, 11 or 14 is accepted
unconditionally; a non-empty input that is not digit-only or has length
outside 8..14 is rejected with a format error; the empty input, though
of wrong length, is accepted with no error (barcode optional). -/
theorem C5_amended_barcode_validation (s : String) (htrim : jsTrim s = s) :
    (s = "" → isValidBarcode s = ⟨true, ""⟩) ∧
    (isDigitString s = true →
      (s.length = 8 →
        ((isValidBarcode s).valid = true ↔
          checkDigitOf (weightedSum31 (digitsOf s).dropLast) =
            (digitsOf s).getLastD 0)) ∧
      (s.length = 12 →
        ((isValidBarcode s).valid = true ↔
          checkDigitOf (weightedSum31 (digitsOf s).dropLast) =
            (digitsOf s).getLastD 0)) ∧
      (s.length = 13 →
        ((isValidBarcode s).valid = true ↔
          checkDigitOf (weightedSum13 (digitsOf s).dropLast) =
            (digitsOf s).getLastD 0)) ∧
      ((s.length = 9 ∨ s.length = 10 ∨ s.length = 11 ∨ s.length = 14) →
        isValidBarcode s = ⟨true, ""⟩)) ∧
    (s ≠ "" → (isDigitString s = false ∨ s.length < 8 ∨ 14 < s.length) →
      (isValidBarcode s).valid = false ∧ (isValidBarcode s).error ≠ "") := by
  refine ⟨?_, ?_, ?_⟩
  · rintro rfl
    rfl
  · intro hdig
    have hne : s ≠ "" := by
      intro he
      rw [he] at hdig
      exact absurd hdig (by decide)
    refine ⟨?_, ?_, ?_, ?_⟩
    · intro hlen
      simp only [isValidBarcode, htrim, if_neg hne, hlen, hdig]
      norm_num
      cases h8 : isValidEAN8 s with
      | true =>
        simp only [isValidEAN8, beq_iff_eq] at h8
        simp [h8, List.getLastD_eq_getLast?]
      | false =>
        simp only [isValidEAN8, beq_eq_false_iff_ne,
          List.getLastD_eq_getLast?] at h8
        simp [h8]
    · intro hlen
      simp only [isValidBarcode, htrim, if_neg hne, hlen, hdig]
      norm_num
      cases h12 : isValidUPCA s with
      | true =>
        simp only [isValidUPCA, beq_iff_eq] at h12
        simp [h12, List.getLastD_eq_getLast?]
      | false =>
        simp only [isValidUPCA, beq_eq_false_iff_ne,
          List.getLastD_eq_getLast?] at h12
        simp [h12]
    · intro hlen
      simp only [isValidBarcode, htrim, if_neg hne, hlen, hdig]
      norm_num
      cases h13 : isValidEAN13 s with
      | true =>
        simp only [isValidEAN13, beq_iff_eq] at h13
        simp [h13, List.getLastD_eq_getLast?]
      | false =>
        simp only [isValidEAN13, beq_eq_false_iff_ne,
          List.getLastD_eq_getLast?] at h13
        simp [h13]
    · intro hlen
      rcases hlen with hlen | hlen | hlen | hlen <;>
        simp [isValidBarcode, htrim, hne, hlen, hdig]
  · intro hne hbad
    by_cases hr : s.length < 8 ∨ 14 < s.length
    · have hres : isValidBarcode s =
          ⟨false, "Barcode must be between 8 and 14 digits"⟩ := by
        have hc : (decide (s.length < 8) || decide (14 < s.length)) = true := by
          rcases hr with hr | hr <;> simp [hr]
        simp [isValidBarcode, htrim, hne, hc]
      rw [hres]
      exact ⟨rfl, by decide⟩
    · push_neg at hr
      have h1 : ¬(s.length < 8) := not_lt.2 hr.1
      have h2 : ¬(14 < s.length) := not_lt.2 hr.2
      have hd : isDigitString s = false := by
        rcases hbad with hd | h8 | h14
        · exact hd
        · exact absurd h8 h1
        · exact absurd h14 h2
      have hres : isValidBarcode s =
          ⟨false, "Barcode must contain only numbers"⟩ := by
        simp [isValidBarcode, htrim, hne, h1, h2, hd]
      rw [hres]
      exact ⟨rfl, by decide⟩

/-- C6: the recorded `totalAmount` of a submitted order equals the sum
of its lines' independently rounded subtotals
`round2(unitPrice * quantity)` (the outer rounding of `submitOrder` is
the identity on such a sum), and it is not the order-level rounding of
the unrounded sum of exact products: on the concrete two-line order of
1.005-priced unit quantities the two disagree. -/
theorem C6_total_amount_rounding :
    (∀ st : OrderFormState,
      orderTotalAmount (preparedLines st) =
        ((preparedLines st).map fun i => round2 (i.unitPrice * i.quantity)).sum) ∧
    orderTotalAmount (preparedLines c6State) ≠
      round2 ((preparedLines c6State).map fun i => i.unitPrice * i.quantity).sum := by
  have hmain : ∀ st : OrderFormState,
      orderTotalAmount (preparedLines st) =
        ((preparedLines st).map fun i => round2 (i.unitPrice * i.quantity)).sum := by
    intro st
    have hmap : (preparedLines st).map PreparedItem.subtotal =
        (preparedLines st).map fun i => round2 (i.unitPrice * i.quantity) :=
      List.map_congr_left fun i hi => preparedLines_subtotal st hi
    unfold orderTotalAmount
    rw [hmap]
    refine round2_sum_eq_of_mem _ ?_
    intro x hx
    obtain ⟨i, _, rfl⟩ := List.mem_map.1 hx
    exact ⟨⌊i.unitPrice * i.quantity * 100 + 1/2⌋, rfl⟩
  refine ⟨hmain, ?_⟩
  have hprep : preparedLines c6State =
      [⟨"p1", 1, 201/200, round2 (201/200)⟩,
       ⟨"p2", 1, 201/200, round2 (201/200)⟩] := by
    simp [preparedLines, c6State, c6Product, priceByProductId,
      sellableProducts, mapUpd,
      show ((0:ℚ) < 1) from by norm_num,
      show ("p1":String) ≠ "" from by decide,
      show ("p2":String) ≠ "" from by decide,
      show ("p1":String) ≠ "p2" from by decide,
      show ("p2":String) ≠ "p1" from by decide]
  rw [hmain c6State, hprep]
  norm_num [round2]

/-- C3: consider a line of the order form whose product's cached
inventory row is `inv` (stock `s = inv.stockLevel ?? 0`) and whose
requested quantity is `q`.  If `q > s`, validation fails and submission
issues no Record Store write at all (under any fault model).  If
validation passes, submission issues the inventory write
`stockLevel = max 0 (s - q)` for that row. -/
theorem C3_stock_validation_and_decrement (st : OrderFormState)
    (store : Store) (orderId : String) (itemIds : Nat → String) (now : ℚ)
    (l : OrderLine) (q : ℚ) (inv : Inventory)
    (hl : l ∈ st.lines) (hq : l.quantity = some q)
    (hnd : (st.inventoryItems.map Inventory.productId).Nodup)
    (hfind : findInventoryByProductId st l.productId = some inv) :
    (inv.stockLevel.getD 0 < q →
      validateOrder st = false ∧
      ∀ f : FaultModel,
        submitOrder st store orderId itemIds now f = (store, [])) ∧
    (validateOrder st = true →
      WriteOp.updateInventory inv.id (max 0 (inv.stockLevel.getD 0 - q)) now ∈
        (submitOrder st store orderId itemIds now noFault).2) := by
  have hstock : (stockByProductId st l.productId).getD 0 =
      inv.stockLevel.getD 0 := by
    rw [stockByProductId_find st hnd hfind]
    rfl
  constructor
  · intro hlt
    have hchk : checkLines st st.lines [] = false :=
      checkLines_false_of_overstock st st.lines [] l q hl hq
        (by rw [hstock]; exact hlt)
    have hv : validateOrder st = false := by
      simp [validateOrder, hchk]
    exact ⟨hv, fun f => by simp [submitOrder, hv]⟩
  · intro hv
    have hchk : checkLines st st.lines [] = true := by
      have hv' := hv
      simp only [validateOrder, Bool.and_eq_true] at hv'
      exact hv'.1.2
    obtain ⟨hpid, q', hq', hposq, _⟩ :=
      checkLines_line_facts st st.lines [] l hchk hl
    have hqq : q' = q := by
      rw [hq] at hq'
      exact (Option.some.inj hq').symm
    subst hqq
    have hq0 : 0 < q' := by
      simp only [isPosIntQ, Bool.and_eq_true, decide_eq_true_eq] at hposq
      exact hposq.2
    have hgd : l.quantity.getD 0 = q' := by rw [hq]; rfl
    have hmemP := preparedLines_mem st hl hpid (by rw [hgd]; exact hq0)
    have hmemOp := lineOps_mem_update st orderId itemIds now
      (preparedLines st) 0 _ inv hmemP hfind
    rw [writtenStock_eq_max] at hmemOp
    simp only [hgd] at hmemOp
    have hsub : (submitOrder st store orderId itemIds now noFault).2 =
        WriteOp.createOrder (orderHeader st orderId now) ::
          lineOps st orderId itemIds now (preparedLines st) 0 := by
      simp [submitOrder, hv, noFault, processLines_eq]
    rw [hsub]
    exact List.mem_cons_of_mem _ hmemOp

/-- C4: when validation passes and the order-header create succeeds,
submission under an arbitrary per-line fault model produces: the header
appended to the stored orders (never rolled back), exactly the
`OrderItem` records of the lines whose own create succeeded (each line's
record independent of the other lines' failures, earlier writes kept),
and the inventory updates of the lines whose own update succeeded — and
every line whose create succeeds has its record in the final store,
regardless of failures elsewhere. -/
theorem C4_per_line_failure_tolerance (st : OrderFormState) (store : Store)
    (orderId : String) (itemIds : Nat → String) (now : ℚ) (f : FaultModel)
    (hv : validateOrder st = true) (hh : f.headerFails = false) :
    submitOrder st store orderId itemIds now f =
      ({ orders := store.orders ++ [orderHeader st orderId now]
         orderItems := store.orderItems ++
           createdItems orderId itemIds f (preparedLines st) 0
         inventory := inventoryAfter st now f (preparedLines st) 0
           store.inventory
         returns := store.returns
         returnItems := store.returnItems },
       WriteOp.createOrder (orderHeader st orderId now) ::
         lineOps st orderId itemIds now (preparedLines st) 0) ∧
    (∀ (i : Nat) (item : PreparedItem),
      (preparedLines st)[i]? = some item → f.createFails i = false →
      mkOrderItemRec orderId itemIds i item ∈
        (submitOrder st store orderId itemIds now f).1.orderItems) := by
  have hmain : submitOrder st store orderId itemIds now f =
      ({ orders := store.orders ++ [orderHeader st orderId now]
         orderItems := store.orderItems ++
           createdItems orderId itemIds f (preparedLines st) 0
         inventory := inventoryAfter st now f (preparedLines st) 0
           store.inventory
         returns := store.returns
         returnItems := store.returnItems },
       WriteOp.createOrder (orderHeader st orderId now) ::
         lineOps st orderId itemIds now (preparedLines st) 0) := by
    simp [submitOrder, hv, hh, processLines_eq]
  refine ⟨hmain, ?_⟩
  intro i item hget hf
  rw [hmain]
  have hmem := createdItems_mem orderId itemIds f (preparedLines st) 0 i item
    hget (by simpa using hf)
  rw [Nat.zero_add] at hmem
  exact List.mem_append_right _ hmem

/-- C9: every order the submission flow creates has
`status = 'completed'` and `orderDate = now`; consequently a successful
submission grows the completed-order count by exactly 1 and the
completed-order sales total by exactly the new order's `totalAmount`. -/
theorem C9_order_created_completed (st : OrderFormState) (store : Store)
    (orderId : String) (itemIds : Nat → String) (now : ℚ) (f : FaultModel)
    (hv : validateOrder st = true) (hh : f.headerFails = false) :
    (orderHeader st orderId now).status = some "completed" ∧
    (orderHeader st orderId now).orderDate = some now ∧
    (submitOrder st store orderId itemIds now f).1.orders =
      store.orders ++ [orderHeader st orderId now] ∧
    totalOrdersStat (submitOrder st store orderId itemIds now f).1.orders =
      totalOrdersStat store.orders + 1 ∧
    totalSalesStat (submitOrder st store orderId itemIds now f).1.orders =
      totalSalesStat store.orders +
        (orderHeader st orderId now).totalAmount.getD 0 := by
  have hcomp : statusCompleted (orderHeader st orderId now) = true := rfl
  have horders : (submitOrder st store orderId itemIds now f).1.orders =
      store.orders ++ [orderHeader st orderId now] := by
    simp [submitOrder, hv, hh, processLines_eq]
  refine ⟨rfl, rfl, horders, ?_, ?_⟩
  · rw [horders]
    simp [totalOrdersStat, List.filter_append, hcomp]
  · rw [horders]
    simp [totalSalesStat, List.filter_append, List.foldl_append, hcomp]

/-- Witness for C3: requesting 3 units with cached stock 2 is rejected
at validation with no write under every fault model. -/
theorem C3_stock_validation_and_decrement_witness :
    validateOrder c3BadState = false ∧
    ∀ f : FaultModel,
      submitOrder c3BadState emptyStore "o1" (fun _ => "it1") 7 f =
        (emptyStore, []) :=
  (C3_stock_validation_and_decrement c3BadState emptyStore "o1"
      (fun _ => "it1") 7 { productId := "p1", quantity := some 3 } 3 c3Inv
      (by simp [c3BadState]) rfl (by simp [c3BadState, c3Inv]) rfl).1
    (by norm_num [c3Inv])

/-- Witness for C4: the valid one-line order form submitted under the
all-success fault model satisfies the closed-form decomposition. -/
theorem C4_per_line_failure_tolerance_witness :
    submitOrder c3GoodState emptyStore "o1" (fun _ => "it1") 7 noFault =
      ({ orders := emptyStore.orders ++ [orderHeader c3GoodState "o1" 7]
         orderItems := emptyStore.orderItems ++
           createdItems "o1" (fun _ => "it1") noFault
             (preparedLines c3GoodState) 0
         inventory := inventoryAfter c3GoodState 7 noFault
           (preparedLines c3GoodState) 0 emptyStore.inventory
         returns := emptyStore.returns
         returnItems := emptyStore.returnItems },
       WriteOp.createOrder (orderHeader c3GoodState "o1" 7) ::
         lineOps c3GoodState "o1" (fun _ => "it1") 7
           (preparedLines c3GoodState) 0) :=
  (C4_per_line_failure_tolerance c3GoodState emptyStore "o1" (fun _ => "it1")
      7 noFault c3GoodState_valid rfl).1

/-- Witness for C9 at the valid one-line order form. -/
theorem C9_order_created_completed_witness :
    (orderHeader c3GoodState "o1" 7).status = some "completed" ∧
    (orderHeader c3GoodState "o1" 7).orderDate = some 7 ∧
    (submitOrder c3GoodState emptyStore "o1" (fun _ => "it1") 7
        noFault).1.orders =
      emptyStore.orders ++ [orderHeader c3GoodState "o1" 7] ∧
    totalOrdersStat (submitOrder c3GoodState emptyStore "o1" (fun _ => "it1")
        7 noFault).1.orders = totalOrdersStat emptyStore.orders + 1 ∧
    totalSalesStat (submitOrder c3GoodState emptyStore "o1" (fun _ => "it1")
        7 noFault).1.orders =
      totalSalesStat emptyStore.orders +
        (orderHeader c3GoodState "o1" 7).totalAmount.getD 0 :=
  C9_order_created_completed c3GoodState emptyStore "o1" (fun _ => "it1") 7
    noFault c3GoodState_valid rfl

/-- C7 counterexample: the day filter of `chartData` ends at
23:59:59.000 local time, so the completed order `c7LateOrder` at
23:59:59.500 of the selected day falls in hour 23 (its `getHours()` is
23 and its instant precedes the next midnight) with total 10, yet
bucket 23 is 0; and buckets are rounded to 2 decimals, so the half-cent
completed total 0.005 in hour 0 yields bucket 0.01, not the exact sum
0.005 the claim requires. -/
theorem C7_counterexample_day_window_and_rounding :
    statusCompleted c7LateOrder = true ∧
    c7LateOrder.orderDate = some (86400000 + 86399500) ∧
    hourOfDay 86400000 (86400000 + 86399500) = 23 ∧
    (86400000 : ℚ) ≤ 86400000 + 86399500 ∧
    (86400000 : ℚ) + 86399500 < 86400000 + 86400000 ∧
    c7LateOrder.totalAmount.getD 0 = 10 ∧
    (chartDataValues [c7LateOrder] 86400000).getD 23 0 = 0 ∧
    statusCompleted c7HalfCentOrder = true ∧
    hourOfDay 86400000 86400000 = 0 ∧
    bucketSumSpec [c7HalfCentOrder] 86400000 0 = 1/200 ∧
    (chartDataValues [c7HalfCentOrder] 86400000).getD 0 0 = 1/100 := by
  have hh23 : hourOfDay 86400000 (86400000 + 86399500) = 23 := by
    unfold hourOfDay
    rw [Int.floor_eq_iff]
    constructor <;> norm_num
  have hh0 : hourOfDay 86400000 86400000 = 0 := by
    unfold hourOfDay
    rw [Int.floor_eq_iff]
    constructor <;> norm_num
  have hbLate : bucketSumSpec [c7LateOrder] 86400000 23 = 0 := by
    have hkept : inHourBucket 86400000 23 c7LateOrder = false := by
      simp only [inHourBucket, c7LateOrder, statusCompleted]
      norm_num
    simp [bucketSumSpec, hkept]
  have hbHalf : bucketSumSpec [c7HalfCentOrder] 86400000 0 = 1/200 := by
    have hkept : inHourBucket 86400000 0 c7HalfCentOrder = true := by
      simp only [inHourBucket, c7HalfCentOrder, statusCompleted]
      norm_num [hh0, show lowerStr "completed" = "completed" from by decide]
    simp only [bucketSumSpec, List.filter_cons, hkept, if_true,
      List.filter_nil, List.map_cons, List.map_nil, List.sum_cons,
      List.sum_nil]
    norm_num [c7HalfCentOrder]
  refine ⟨rfl, rfl, hh23, by norm_num, by norm_num, rfl, ?_, rfl, hh0,
    hbHalf, ?_⟩
  · rw [chartDataValues_eq_bucket _ _ (by norm_num) 23 (by norm_num)]
    push_cast
    rw [hbLate]
    norm_num [round2]
  · rw [chartDataValues_eq_bucket _ _ (by norm_num) 0 (by norm_num)]
    push_cast
    rw [hbHalf]
    norm_num [round2]

/-- C7 (amended): for every order list and selected day (whose local
midnight `dayStart` is a positive epoch instant), `chartData` yields
exactly 24 hourly buckets; bucket `i` is the 2-decimal rounding of the
sum of `totalAmount` over completed orders (case-insensitive status)
whose `orderDate` lies in hour `i` within the day window
00:00:00.000–23:59:59.000 inclusive — so orders in the final 999 ms of
the day are excluded; with no completed orders every bucket is 0, never
an empty series. -/
theorem C7_amended_hourly_buckets (orders : List OrderRec) (dayStart : ℚ)
    (hpos : 0 < dayStart) :
    (chartDataValues orders dayStart).length = 24 ∧
    (∀ i : Nat, i < 24 →
      (chartDataValues orders dayStart).getD i 0 =
        round2 (bucketSumSpec orders dayStart i)) ∧
    ((∀ o ∈ orders, statusCompleted o = false) →
      chartDataValues orders dayStart = List.replicate 24 0) := by
  refine ⟨by simp [chartDataValues],
    fun i hi => chartDataValues_eq_bucket orders dayStart hpos i hi, ?_⟩
  intro hnone
  have hfil : orders.filter (chartOrderKept dayStart) = [] := by
    rw [List.filter_eq_nil_iff]
    intro o ho
    simp [chartOrderKept, hnone o ho]
  unfold chartDataValues chartCompletedOrders
  rw [hfil]
  have hzero : ∀ i : Nat,
      round2 (salesByHour
        (([] : List OrderRec).mergeSort
          fun a b => decide (a.orderDate.getD 0 ≤ b.orderDate.getD 0))
        dayStart (i : ℤ)) = 0 := by
    intro i
    norm_num [salesByHour, round2]
  rw [List.map_congr_left fun i _ => hzero i]
  simp

/-- Witness for C7 (amended) on an empty order set for day 2. -/
theorem C7_amended_hourly_buckets_witness :
    (chartDataValues [] 86400000).length = 24 :=
  (C7_amended_hourly_buckets [] 86400000 (by norm_num)).1

/-- C10: an order item of a completed order whose product either has no
inventory row at all or whose latest inventory row (greatest
`lastUpdated`) has no `purchasePrice` contributes exactly
`unitPrice * quantity` to `totalProfit` — the missing cost basis counts
as 0 and the item is neither dropped nor an error. -/
theorem C10_missing_cost_basis_full_price (orders : List OrderRec)
    (orderItems : List OrderItemRec) (invs : List Inventory)
    (item : OrderItemRec) (hmem : item ∈ orderItems)
    (hcomp : ((orders.filter statusCompleted).map OrderRec.id).contains
      item.orderId = true)
    (hinv : (∀ r ∈ invs, r.productId ≠ item.productId) ∨
            (∃ r, latestInventoryByProduct invs item.productId = some r ∧
              r.purchasePrice = none)) :
    profitOfItem invs item =
      item.unitPrice.getD 0 * item.quantity.getD 0 ∧
    totalProfit orders orderItems invs =
      totalProfit orders (orderItems.erase item) invs +
        item.unitPrice.getD 0 * item.quantity.getD 0 := by
  have hpp : ((latestInventoryByProduct invs item.productId).bind
      Inventory.purchasePrice).getD 0 = 0 := by
    rcases hinv with hnone | ⟨r, hr, hrp⟩
    · rw [latestInventoryByProduct_none invs item.productId hnone]
      rfl
    · rw [hr]
      simp [hrp]
  have hprofit : profitOfItem invs item =
      item.unitPrice.getD 0 * item.quantity.getD 0 := by
    unfold profitOfItem
    rw [hpp]
    ring
  have hneC : (orders.filter statusCompleted).isEmpty = false := by
    cases hfe : orders.filter statusCompleted with
    | nil => rw [hfe] at hcomp; simp at hcomp
    | cons a l => rfl
  have hif : ∀ ois : List OrderItemRec,
      totalProfit orders ois invs =
        ((ois.filter fun it =>
            ((orders.filter statusCompleted).map OrderRec.id).contains
              it.orderId).map (profitOfItem invs)).sum := by
    intro ois
    unfold totalProfit
    rw [if_neg (by simp [hneC])]
    rw [foldl_add_sum (profitOfItem invs)]
    simp
  refine ⟨hprofit, ?_⟩
  rw [hif orderItems, hif (orderItems.erase item)]
  have hperm : orderItems.Perm (item :: orderItems.erase item) :=
    List.perm_cons_erase hmem
  rw [List.Perm.sum_eq (List.Perm.map (profitOfItem invs)
    (List.Perm.filter _ hperm))]
  rw [List.filter_cons]
  simp only [hcomp, if_pos, List.map_cons, List.sum_cons]
  rw [hprofit]
  ring

/-- Witness for C10: a completed order's item with no inventory row at
all contributes its full `unitPrice * quantity`. -/
theorem C10_missing_cost_basis_full_price_witness :
    profitOfItem [] c10Item =
      c10Item.unitPrice.getD 0 * c10Item.quantity.getD 0 ∧
    totalProfit [c10Order] [c10Item] [] =
      totalProfit [c10Order] ([c10Item].erase c10Item) [] +
        c10Item.unitPrice.getD 0 * c10Item.quantity.getD 0 :=
  C10_missing_cost_basis_full_price [c10Order] [c10Item] [] c10Item
    (by simp) (by decide) (Or.inl (by simp))

/-- Witness for C5 (amended) at the spec's own EAN-8 example
`"40123455"`. -/
theorem C5_amended_barcode_validation_witness :
    (isValidBarcode "40123455").valid = true :=
  (((C5_amended_barcode_validation "40123455" (by decide)).2.1
      (by decide)).1 (by decide)).mpr (by decide)

end POS
